import Mathlib

/-!
Verification of the Pixels Web Connect core, shallowly embedded from the
TypeScript source (Messages.ts, Utils/exponentialBackOff, Pixel.ts and the
bulk-transfer code). Byte buffers are lists of naturals below 256. Where
the JavaScript code coerces a number (Uint8Array.of, DataView.setUint8,
DataView.setUint32), the embedding reduces modulo the matching power of
two at exactly that point. A DataView read past the end of the buffer
throws a RangeError in JavaScript; the embedding returns an explicit
out-of-range error value instead.
-/

namespace PixelsWebConnect

/-!
## Message type registry (Messages.ts, MessageTypeValues)

The source assigns consecutive ordinals starting at 0 through an enumVal
counter (None = 0, WhoAreYou = 1, IAmADie = 2, ...). The constants below
are the resulting values for the entries the development needs, obtained
by counting positions in the source listing.
-/

namespace MessageTypeValues

def WhoAreYou : Nat := 1

def IAmADie : Nat := 2

def RollState : Nat := 3

def BulkSetup : Nat := 5

def BulkSetupAck : Nat := 6

def BulkData : Nat := 7

def BulkDataAck : Nat := 8

def PlaySound : Nat := 22

def Blink : Nat := 29

def BatteryLevel : Nat := 34

def Rssi : Nat := 36

end MessageTypeValues

/-!
## Structured messages (Messages.ts classes)

Each class of the source becomes a constructor carrying exactly the
declared fields. BatteryLevel.level and BatteryLevel.voltage are IEEE-754
32-bit floats in the source; the embedding keeps their raw little-endian
32-bit patterns, which are in bijection with the float bits, since no
claim computes with the float values themselves. IAmADie.version is a
text string decoded from the byte tail; the embedding keeps the byte
sequence before the first NUL, which is what the TextDecoder + indexOf
truncation produces at the byte level.
-/

inductive Message where
  | IAmADie (diceType designAndColor dataSetHash pixelId flashSize : Nat)
      (version : List Nat)
  | RollState (state face : Nat)
  | PlaySound (clipId : Nat)
  | BatteryLevel (level voltage : Nat) (charging : Bool)
  | Rssi (rssi : Nat)
  | Blink (flashCount color : Nat)
  deriving DecidableEq

/-- Discriminant stored in the readonly type field of each message class. -/
def Message.type : Message → Nat
  | .IAmADie _ _ _ _ _ _ => MessageTypeValues.IAmADie
  | .RollState _ _ => MessageTypeValues.RollState
  | .PlaySound _ => MessageTypeValues.PlaySound
  | .BatteryLevel _ _ _ => MessageTypeValues.BatteryLevel
  | .Rssi _ => MessageTypeValues.Rssi
  | .Blink _ _ => MessageTypeValues.Blink

/-- Union type MessageOrType = Message | MessageType of the source. A bare
number is tagged ofType, a structured message ofMsg. -/
inductive MessageOrType where
  | ofType (t : Nat)
  | ofMsg (m : Message)
  deriving DecidableEq

/-- getMessageType from Messages.ts: a bare number is returned as is,
otherwise the type field of the message object is read. -/
def getMessageType : MessageOrType → Nat
  | .ofType t => t
  | .ofMsg m => m.type

/-- Value of the flashCount property read by serializeMessage after its
cast of the message to Blink. On a message without that field the
JavaScript property access yields undefined, which DataView.setUint8
coerces to 0. -/
def Message.castBlinkFlashCount : Message → Nat
  | .Blink flashCount _ => flashCount
  | _ => 0

/-- Value of the color property read by serializeMessage after its cast of
the message to Blink. On a message without that field the JavaScript
property access yields undefined, which DataView.setUint32 coerces to 0. -/
def Message.castBlinkColor : Message → Nat
  | .Blink _ color => color
  | _ => 0

/-- Little-endian byte splitting of a 32-bit write, as DataView.setUint32
with littleEndian = true performs on the value taken modulo 2 ^ 32. -/
def u32LE (v : Nat) : List Nat :=
  [v % 256, v / 256 % 256, v / 65536 % 256, v / 16777216 % 256]

/-- serializeMessage from Messages.ts. A bare type serializes to the single
byte Uint8Array.of(type). A structured message is cast to Blink and written
into a 6-byte ArrayBuffer: setUint8(0, type), setUint8(1, flashCount),
setUint32(2, color, littleEndian). -/
def serializeMessage : MessageOrType → List Nat
  | .ofType t => [t % 256]
  | .ofMsg m => m.type % 256 :: m.castBlinkFlashCount % 256 :: u32LE m.castBlinkColor

/-- Failure modes of deserializeMessage: the explicit throw on a zero-length
buffer, and the RangeError a DataView getter throws when a read would run
past the end of the buffer. -/
inductive DeserializeError where
  | emptyBuffer
  | outOfRange
  deriving DecidableEq

/-- DataView.getUint8 at offset i: the byte when in bounds, RangeError
otherwise. -/
def readU8 (b : List Nat) (i : Nat) : Except DeserializeError Nat :=
  if h : i < b.length then Except.ok (b.get ⟨i, h⟩)
  else Except.error DeserializeError.outOfRange

/-- DataView.getUint16 little-endian at offset i. -/
def readU16 (b : List Nat) (i : Nat) : Except DeserializeError Nat :=
  if i + 2 ≤ b.length then Except.ok (b.getD i 0 + 256 * b.getD (i + 1) 0)
  else Except.error DeserializeError.outOfRange

/-- DataView.getUint32 little-endian at offset i. -/
def readU32 (b : List Nat) (i : Nat) : Except DeserializeError Nat :=
  if i + 4 ≤ b.length then
    Except.ok (b.getD i 0 + 256 * b.getD (i + 1) 0 + 65536 * b.getD (i + 2) 0
      + 16777216 * b.getD (i + 3) 0)
  else Except.error DeserializeError.outOfRange

/-- DataView.getFloat32 little-endian at offset i, kept as the raw 32-bit
pattern of the four bytes (a bijective image of the decoded float bits). -/
def readF32Bits (b : List Nat) (i : Nat) : Except DeserializeError Nat :=
  readU32 b i

/-- deserializeMessage from Messages.ts. Throws on a zero-length buffer,
reads the discriminant byte, dispatches on the five structured cases with
the sequential reads of the source (the numeric offsets below are the
running index values produced by those reads), and returns the bare
discriminant on any other value. -/
def deserializeMessage (buffer : List Nat) : Except DeserializeError MessageOrType :=
  if buffer.length = 0 then Except.error DeserializeError.emptyBuffer
  else do
    let msgType ← readU8 buffer 0
    if msgType = MessageTypeValues.IAmADie then do
      let diceType ← readU8 buffer 1
      let designAndColor ← readU8 buffer 2
      -- index += 1 skips one padding byte, moving the index from 3 to 4
      let dataSetHash ← readU32 buffer 4
      let deviceId ← readU32 buffer 8
      let flashSize ← readU16 buffer 12
      let version := (buffer.drop 14).takeWhile fun x => x != 0
      Except.ok (.ofMsg (.IAmADie diceType designAndColor dataSetHash deviceId flashSize version))
    else if msgType = MessageTypeValues.RollState then do
      let state ← readU8 buffer 1
      let face ← readU8 buffer 2
      Except.ok (.ofMsg (.RollState state (face + 1)))
    else if msgType = MessageTypeValues.PlaySound then do
      let clipId ← readU16 buffer 1
      Except.ok (.ofMsg (.PlaySound clipId))
    else if msgType = MessageTypeValues.BatteryLevel then do
      let level ← readF32Bits buffer 1
      let voltage ← readF32Bits buffer 5
      let charging ← readU8 buffer 9
      Except.ok (.ofMsg (.BatteryLevel level voltage (charging != 0)))
    else if msgType = MessageTypeValues.Rssi then do
      let value ← readU16 buffer 1
      Except.ok (.ofMsg (.Rssi value))
    else
      Except.ok (.ofType msgType)

/-!
## Retry helper (Utils.ts / exponentialBackOff.ts)

The source tries the fallible operation once; on success it invokes the
success callback with the result; on failure, when retries is not zero it
waits delay seconds (delay * 1000 milliseconds) and recurses with
retries - 1 and delay * 2, and when retries is zero it invokes the fail
callback with the error. The asynchronous operation is embedded as a
sequence of outcomes indexed by the invocation number, and the run is
summarised by the observable trace below.
-/

/-- Observable trace of one exponentialBackOff run: how many times the
operation was invoked, the waits performed (in seconds, in order), and the
arguments passed to the success and fail callbacks. -/
structure BackOffRun (ε α : Type) where
  calls : Nat
  waits : List Nat
  successResults : List α
  failErrors : List ε
  deriving DecidableEq

/-- exponentialBackOff from the source, over the outcome sequence toTry;
attempt is the index of the current invocation. The retries check mirrors
the source test retries !== 0. -/
def exponentialBackOff {ε α : Type} (retries delay : Nat) (toTry : Nat → Except ε α)
    (attempt : Nat) : BackOffRun ε α :=
  match toTry attempt with
  | Except.ok result => ⟨1, [], [result], []⟩
  | Except.error e =>
    match retries with
    | r + 1 =>
      let rest := exponentialBackOff r (delay * 2) toTry (attempt + 1)
      ⟨rest.calls + 1, delay :: rest.waits, rest.successResults, rest.failErrors⟩
    | 0 => ⟨1, [], [], [e]⟩

/-!
## Connection state machine (Pixel.ts)

Only the state touched by the gattserverdisconnected listener and by
disconnect() is modelled: presence of the GATT server object, its
connected property, and the private fields of the Pixel class.
-/

inductive ConnectionEvent where
  | Connecting
  | Connected
  | FailedToConnect
  | Ready
  | Disconnecting
  | Disconnected
  deriving DecidableEq

inductive ConnectionEventReason where
  | Unknown
  | Success
  | Canceled
  | NotSupported
  | Timeout
  | LinkLoss
  | AdapterOff
  | Peripheral
  deriving DecidableEq

/-- State of a Pixel instance: gattPresent models device.gatt being
defined, gattConnected its connected property, and the remaining fields
are the private fields connected, reconnect, session (presence only) and
info of the Pixel class. -/
structure PixelState where
  gattPresent : Bool
  gattConnected : Bool
  connected : Bool
  reconnect : Bool
  hasSession : Bool
  info : Option Message
  deriving DecidableEq

namespace Pixel

/-- Result of the gattserverdisconnected listener: the state after the
reset, the reason it computed, the connection events it emitted in order,
and whether an asynchronous reconnect was scheduled. -/
structure LinkLossOutcome where
  state : PixelState
  reason : ConnectionEventReason
  events : List (ConnectionEvent × ConnectionEventReason)
  scheduleReconnect : Bool
  deriving DecidableEq

/-- The gattserverdisconnected listener of the Pixel constructor: reason
starts as Success and is replaced when the connected flag is still set;
auto-reconnect is scheduled when the reconnect flag is set and info is
populated; then connected, session and info are reset and Disconnected is
emitted with the reason. -/
def gattServerDisconnected (s : PixelState) : LinkLossOutcome :=
  let reason := ConnectionEventReason.Success
  let reason := if s.connected then
      (if s.reconnect then ConnectionEventReason.LinkLoss else ConnectionEventReason.Timeout)
    else reason
  let reconnect := s.reconnect && s.info.isSome
  ⟨{ s with connected := false, hasSession := false, info := none },
    reason, [(ConnectionEvent.Disconnected, reason)], reconnect⟩

/-- disconnect() of the Pixel class. Output: the new state, the connection
events emitted (notifyConnEv defaults the reason to Success), and whether
server.disconnect() was invoked to close the link. When the server is
absent or its connected property is false the body is skipped entirely. -/
def disconnect (s : PixelState) :
    PixelState × List (ConnectionEvent × ConnectionEventReason) × Bool :=
  if s.gattPresent && s.gattConnected then
    ({ s with connected := false },
      [(ConnectionEvent.Disconnecting, ConnectionEventReason.Success)], true)
  else (s, [], false)

end Pixel

/-!
## Bulk transfer (uploadBulkData and Constants.ts)
-/

namespace Constants

def MaxMessageSize : Nat := 100

def AckMessageTimeout : Nat := 5000

end Constants

/-- Messages sent by uploadBulkData: the BulkSetup message carrying the
total size, and BulkData messages carrying offset, size and the byte
slice data.slice(offset, offset + size). -/
inductive BulkMessage where
  | setup (size : Nat)
  | data (offset size : Nat) (bytes : List Nat)
  deriving DecidableEq

/-- One sendAndWaitForResponse step of the bulk transfer: the message sent
and the message type whose acknowledgement is awaited before the transfer
continues. -/
structure SentBulk where
  msg : BulkMessage
  awaitedAck : Nat
  deriving DecidableEq

/-- The while loop of uploadBulkData: while remainingSize > 0, send a
BulkData chunk of size min(remainingSize, Constants.MaxMessageSize) at the
current offset and await BulkDataAck, then advance and report progress
offset / data.byteLength. JavaScript number division is modelled by exact
rational arithmetic. Returns the chunk sends in order and the progress
values in order. -/
def uploadBulkDataLoop (data : List Nat) (offset remainingSize : Nat) :
    List SentBulk × List ℚ :=
  if h : remainingSize = 0 then ([], [])
  else
    let size := min remainingSize Constants.MaxMessageSize
    let rest := uploadBulkDataLoop data (offset + size) (remainingSize - size)
    (⟨BulkMessage.data offset size ((data.drop offset).take size),
        MessageTypeValues.BulkDataAck⟩ :: rest.1,
      ((offset + size : Nat) : ℚ) / (data.length : ℚ) :: rest.2)
termination_by remainingSize
decreasing_by
  simp only [Constants.MaxMessageSize]
  omega

/-- uploadBulkData of the Pixel class: report progress 0, send BulkSetup
with the total byte length and await BulkSetupAck, then run the chunk
loop. Returns all sends in order and all progress callback values in
order. -/
def uploadBulkData (data : List Nat) : List SentBulk × List ℚ :=
  let rest := uploadBulkDataLoop data 0 data.length
  (⟨BulkMessage.setup data.length, MessageTypeValues.BulkSetupAck⟩ :: rest.1,
    0 :: rest.2)

/-- Outcome sequence whose every invocation fails, used to instantiate the
retry-helper theorem. -/
def alwaysFailTry : Nat → Except Nat Nat := fun _ => Except.error 7

/-- A state whose GATT server is absent and link closed, used to
instantiate the disconnect no-op theorem. -/
def sampleClosedState : PixelState := ⟨false, false, true, true, true, none⟩

/-!
## Helper lemmas
-/

theorem except_ok_bind {ε α β : Type} (a : α) (f : α → Except ε β) :
    (Except.ok a >>= f : Except ε β) = f a := rfl

theorem except_bind_eq_ok {ε α β : Type} (x : Except ε α) (f : α → Except ε β) (b : β) :
    (x >>= f : Except ε β) = Except.ok b ↔ ∃ a, x = Except.ok a ∧ f a = Except.ok b := by
  cases x <;> simp [Bind.bind, Except.bind]

theorem exponentialBackOff_of_ok {ε α : Type} (retries delay : Nat)
    (toTry : Nat → Except ε α) (k : Nat) (a : α) (h : toTry k = Except.ok a) :
    exponentialBackOff retries delay toTry k = ⟨1, [], [a], []⟩ := by
  unfold exponentialBackOff
  rw [h]

theorem exponentialBackOff_of_error_zero {ε α : Type} (delay : Nat)
    (toTry : Nat → Except ε α) (k : Nat) (e : ε) (h : toTry k = Except.error e) :
    exponentialBackOff 0 delay toTry k = ⟨1, [], [], [e]⟩ := by
  unfold exponentialBackOff
  rw [h]

theorem exponentialBackOff_of_error_succ {ε α : Type} (r delay : Nat)
    (toTry : Nat → Except ε α) (k : Nat) (e : ε) (h : toTry k = Except.error e) :
    exponentialBackOff (r + 1) delay toTry k =
      ⟨(exponentialBackOff r (delay * 2) toTry (k + 1)).calls + 1,
        delay :: (exponentialBackOff r (delay * 2) toTry (k + 1)).waits,
        (exponentialBackOff r (delay * 2) toTry (k + 1)).successResults,
        (exponentialBackOff r (delay * 2) toTry (k + 1)).failErrors⟩ := by
  conv_lhs => rw [exponentialBackOff.eq_def]
  rw [h]

theorem doubled_waits (δ j : Nat) :
    δ :: (List.range j).map (fun i => δ * 2 * 2 ^ i) =
      (List.range (j + 1)).map (fun i => δ * 2 ^ i) := by
  rw [List.range_succ_eq_map, List.map_cons, List.map_map]
  have hf : ((fun i => δ * 2 ^ i) ∘ Nat.succ) = fun i => δ * 2 * 2 ^ i := by
    funext i
    simp only [Function.comp_apply, pow_succ]
    ring
  rw [hf, pow_zero, Nat.mul_one]

theorem exponentialBackOff_all_fail {ε α : Type} (toTry : Nat → Except ε α) :
    ∀ (r δ k : Nat), (∀ j, j ≤ r → ∃ e, toTry (k + j) = Except.error e) →
      (exponentialBackOff r δ toTry k).calls = r + 1 ∧
      (exponentialBackOff r δ toTry k).waits = (List.range r).map (fun i => δ * 2 ^ i) ∧
      (exponentialBackOff r δ toTry k).successResults = [] ∧
      ∀ e, toTry (k + r) = Except.error e →
        (exponentialBackOff r δ toTry k).failErrors = [e] := by
  intro r
  induction r with
  | zero =>
    intro δ k hfail
    obtain ⟨e, he⟩ := hfail 0 (Nat.le_refl 0)
    rw [Nat.add_zero] at he
    rw [exponentialBackOff_of_error_zero δ toTry k e he]
    refine ⟨rfl, rfl, rfl, ?_⟩
    intro e2 he2
    rw [Nat.add_zero, he] at he2
    injection he2 with he2
    rw [he2]
  | succ r ih =>
    intro δ k hfail
    obtain ⟨e, he⟩ := hfail 0 (Nat.zero_le _)
    rw [Nat.add_zero] at he
    have ihres := ih (δ * 2) (k + 1) (fun j hj => by
      obtain ⟨e2, he2⟩ := hfail (j + 1) (Nat.succ_le_succ hj)
      exact ⟨e2, by rwa [show k + (j + 1) = k + 1 + j by omega] at he2⟩)
    rw [exponentialBackOff_of_error_succ r δ toTry k e he]
    refine ⟨?_, ?_, ihres.2.2.1, ?_⟩
    · rw [ihres.1]
    · rw [ihres.2.1, doubled_waits]
    · intro e2 he2
      exact ihres.2.2.2 e2 (by rwa [show k + (r + 1) = k + 1 + r by omega] at he2)

theorem exponentialBackOff_first_success {ε α : Type} (toTry : Nat → Except ε α) :
    ∀ (j r δ k : Nat) (a : α), j ≤ r →
      (∀ i, i < j → ∃ e, toTry (k + i) = Except.error e) →
      toTry (k + j) = Except.ok a →
      exponentialBackOff r δ toTry k =
        ⟨j + 1, (List.range j).map (fun i => δ * 2 ^ i), [a], []⟩ := by
  intro j
  induction j with
  | zero =>
    intro r δ k a _ _ hok
    rw [Nat.add_zero] at hok
    rw [exponentialBackOff_of_ok r δ toTry k a hok]
    rfl
  | succ j ih =>
    intro r δ k a hj hbefore hok
    obtain ⟨e, he⟩ := hbefore 0 (Nat.succ_pos j)
    rw [Nat.add_zero] at he
    obtain ⟨s, rfl⟩ : ∃ s, r = s + 1 := ⟨r - 1, by omega⟩
    have ihres := ih s (δ * 2) (k + 1) a (by omega)
      (fun i hi => by
        obtain ⟨e2, he2⟩ := hbefore (i + 1) (by omega)
        exact ⟨e2, by rwa [show k + (i + 1) = k + 1 + i by omega] at he2⟩)
      (by rwa [show k + (j + 1) = k + 1 + j by omega] at hok)
    rw [exponentialBackOff_of_error_succ s δ toTry k e he, ihres, doubled_waits]

/-!
## Claim theorems
-/

/-- C6: deserializeMessage applied to a zero-length buffer fails with the
error kind reserved for decode called on zero-length input, and returns no
message. -/
theorem deserializeMessage_empty_buffer :
    deserializeMessage [] = Except.error DeserializeError.emptyBuffer := rfl

/-- C9: deserializeMessage is not total on non-empty input: on the single
byte equal to the RollState discriminant the field reads run past the end
of the buffer and the function fails with an out-of-range error that is
neither the empty-buffer error nor a decoded result. -/
theorem deserializeMessage_short_roll_state_out_of_range :
    deserializeMessage [MessageTypeValues.RollState] =
      Except.error DeserializeError.outOfRange ∧
    DeserializeError.outOfRange ≠ DeserializeError.emptyBuffer :=
  ⟨rfl, by decide⟩

/-- C1 counterexample: the round-trip claim fails at the concrete
structured message RollState with state 2 and face 5: serializeMessage
encodes it with the Blink layout (absent fields serialize as 0) and
deserializeMessage returns RollState with state 0 and face 1. -/
theorem roundTrip_rollState_cex :
    deserializeMessage (serializeMessage (.ofMsg (.RollState 2 5))) =
      Except.ok (.ofMsg (.RollState 0 1)) ∧
    MessageOrType.ofMsg (.RollState 0 1) ≠ MessageOrType.ofMsg (.RollState 2 5) :=
  ⟨rfl, by decide⟩

/-- C1 amended: deserializeMessage after serializeMessage reproduces the
input only for bare message types whose discriminant is not one of the
five structured decode cases; every structured message is serialized with
the 6-byte Blink layout, so for instance every RollState message
round-trips to RollState with state 0 and face 1 regardless of its
fields. -/
theorem roundTrip_amended :
    (∀ t : Nat, t < 256 →
      t ≠ MessageTypeValues.IAmADie → t ≠ MessageTypeValues.RollState →
      t ≠ MessageTypeValues.PlaySound → t ≠ MessageTypeValues.BatteryLevel →
      t ≠ MessageTypeValues.Rssi →
      deserializeMessage (serializeMessage (.ofType t)) = Except.ok (.ofType t)) ∧
    ∀ state face : Nat,
      deserializeMessage (serializeMessage (.ofMsg (.RollState state face))) =
        Except.ok (.ofMsg (.RollState 0 1)) := by
  constructor
  · intro t ht h2 h3 h22 h34 h36
    have hmod : t % 256 = t := Nat.mod_eq_of_lt ht
    simp [serializeMessage, hmod, deserializeMessage, readU8, except_ok_bind,
      h2, h3, h22, h34, h36]
  · intro state face
    rfl

/-- C1 witness: the amended round-trip theorem applied to the bare
BulkSetup discriminant. -/
theorem roundTrip_amended_witness :
    deserializeMessage (serializeMessage (MessageOrType.ofType 5)) =
      Except.ok (MessageOrType.ofType 5) :=
  roundTrip_amended.1 5 (by decide) (by decide) (by decide) (by decide)
    (by decide) (by decide)

/-- C4 counterexample: serializeMessage of the Blink message with
flashCount 3 and color 0x11223344 is a 6-byte buffer, not the claimed
8-byte [type][flashCount][color:u32][duration:u16] layout; the Blink
class has no duration field. -/
theorem serializeMessage_blink_cex :
    serializeMessage (.ofMsg (.Blink 3 287454020)) = [29, 3, 68, 51, 34, 17] ∧
    (serializeMessage (.ofMsg (.Blink 3 287454020))).length ≠ 8 :=
  ⟨rfl, by decide⟩

/-- C4 amended: serializeMessage of a Blink message emits the 6 bytes
[type:u8][flashCount:u8][color:u32 little-endian] in that order, a 6-byte
buffer whose first byte is the Blink discriminant; no duration field is
emitted. -/
theorem serializeMessage_blink_layout (flashCount color : Nat) :
    serializeMessage (.ofMsg (.Blink flashCount color)) =
      [MessageTypeValues.Blink, flashCount % 256, color % 256, color / 256 % 256,
        color / 65536 % 256, color / 16777216 % 256] ∧
    (serializeMessage (.ofMsg (.Blink flashCount color))).length = 6 :=
  ⟨rfl, rfl⟩

/-- C7: deserializeMessage of a single-byte buffer whose byte is a
discriminant not mapped to a structured decode case returns that bare
discriminant as a valid, payload-less result, not an error. -/
theorem deserializeMessage_unknown_discriminant (t : Nat) (ht : t < 256)
    (h2 : t ≠ MessageTypeValues.IAmADie) (h3 : t ≠ MessageTypeValues.RollState)
    (h22 : t ≠ MessageTypeValues.PlaySound) (h34 : t ≠ MessageTypeValues.BatteryLevel)
    (h36 : t ≠ MessageTypeValues.Rssi) :
    deserializeMessage [t] = Except.ok (.ofType t) := by
  simp [deserializeMessage, readU8, except_ok_bind, h2, h3, h22, h34, h36]

/-- C7 witness: the unknown-discriminant theorem applied to the WhoAreYou
discriminant, which has no structured decode case. -/
theorem deserializeMessage_unknown_discriminant_witness :
    deserializeMessage [1] = Except.ok (MessageOrType.ofType 1) :=
  deserializeMessage_unknown_discriminant 1 (by decide) (by decide) (by decide)
    (by decide) (by decide) (by decide)

/-- C8: for every buffer that deserializeMessage decodes without error,
getMessageType of the result equals the first byte of the buffer, both for
structured variants and for bare discriminant results. -/
theorem getMessageType_eq_first_byte (b : List Nat) (m : MessageOrType)
    (h : deserializeMessage b = Except.ok m) :
    b.head? = some (getMessageType m) := by
  match b with
  | [] => simp [deserializeMessage] at h
  | t :: rest =>
    unfold deserializeMessage at h
    rw [if_neg (by simp)] at h
    have h8 : readU8 (t :: rest) 0 = Except.ok t := by simp [readU8]
    rw [h8, except_ok_bind] at h
    split at h
    next ht =>
      simp only [except_bind_eq_ok] at h
      obtain ⟨d1, -, d2, -, d3, -, d4, -, d5, -, h⟩ := h
      injection h with h
      subst h
      simp [getMessageType, Message.type, ht]
    next =>
      split at h
      next ht =>
        simp only [except_bind_eq_ok] at h
        obtain ⟨s1, -, s2, -, h⟩ := h
        injection h with h
        subst h
        simp [getMessageType, Message.type, ht]
      next =>
        split at h
        next ht =>
          simp only [except_bind_eq_ok] at h
          obtain ⟨c1, -, h⟩ := h
          injection h with h
          subst h
          simp [getMessageType, Message.type, ht]
        next =>
          split at h
          next ht =>
            simp only [except_bind_eq_ok] at h
            obtain ⟨f1, -, f2, -, f3, -, h⟩ := h
            injection h with h
            subst h
            simp [getMessageType, Message.type, ht]
          next =>
            split at h
            next ht =>
              simp only [except_bind_eq_ok] at h
              obtain ⟨v1, -, h⟩ := h
              injection h with h
              subst h
              simp [getMessageType, Message.type, ht]
            next =>
              injection h with h
              subst h
              simp [getMessageType]

/-- C8 witness: the first-byte theorem applied to the one-byte buffer
holding the WhoAreYou discriminant. -/
theorem getMessageType_eq_first_byte_witness :
    List.head? [1] = some (getMessageType (MessageOrType.ofType 1)) :=
  getMessageType_eq_first_byte [1] (MessageOrType.ofType 1) (by rfl)

/-- C5: when every attempt fails, exponentialBackOff invokes the operation
exactly r + 1 times, waits delay before the first retry doubling on each
subsequent retry, passes the last error to the fail callback exactly once,
and for r = 0 performs a single attempt with no wait (List.range 0 is
empty); when the first failing prefix ends in a successful attempt, the
success callback receives the result, no further attempt is made and the
fail callback is never invoked. -/
theorem exponentialBackOff_spec {ε α : Type} (r δ : Nat) (toTry : Nat → Except ε α) :
    ((∀ j, j ≤ r → ∃ e, toTry j = Except.error e) →
      (exponentialBackOff r δ toTry 0).calls = r + 1 ∧
      (exponentialBackOff r δ toTry 0).waits = (List.range r).map (fun i => δ * 2 ^ i) ∧
      (exponentialBackOff r δ toTry 0).successResults = [] ∧
      ∀ e, toTry r = Except.error e →
        (exponentialBackOff r δ toTry 0).failErrors = [e]) ∧
    (∀ j a, j ≤ r → (∀ i, i < j → ∃ e, toTry i = Except.error e) →
      toTry j = Except.ok a →
      exponentialBackOff r δ toTry 0 =
        ⟨j + 1, (List.range j).map (fun i => δ * 2 ^ i), [a], []⟩) := by
  constructor
  · intro hfail
    have hres := exponentialBackOff_all_fail toTry r δ 0
      (fun j hj => by simpa using hfail j hj)
    refine ⟨hres.1, hres.2.1, hres.2.2.1, ?_⟩
    intro e he
    exact hres.2.2.2 e (by simpa using he)
  · intro j a hj hbefore hok
    exact exponentialBackOff_first_success toTry j r δ 0 a hj
      (fun i hi => by simpa using hbefore i hi) (by simpa using hok)

/-- C5 witness: the retry theorem applied with 2 retries, base delay 2 and
an operation whose every attempt fails with error 7. -/
theorem exponentialBackOff_spec_witness :
    (exponentialBackOff 2 2 alwaysFailTry 0).calls = 2 + 1 ∧
    (exponentialBackOff 2 2 alwaysFailTry 0).waits =
      (List.range 2).map (fun i => 2 * 2 ^ i) ∧
    (exponentialBackOff 2 2 alwaysFailTry 0).successResults = [] ∧
    ∀ e, alwaysFailTry 2 = Except.error e →
      (exponentialBackOff 2 2 alwaysFailTry 0).failErrors = [e] :=
  (exponentialBackOff_spec 2 2 alwaysFailTry).1 (fun j _ => ⟨7, rfl⟩)

/-- C3: when the link-loss event fires, the reported disconnect reason
follows the exact precedence Success if the connected flag is already
false at that moment, else LinkLoss if the auto-reconnect intent flag is
set, else Timeout. -/
theorem gattServerDisconnected_reason_precedence (s : PixelState) :
    (Pixel.gattServerDisconnected s).reason =
      if s.connected = false then ConnectionEventReason.Success
      else if s.reconnect = true then ConnectionEventReason.LinkLoss
      else ConnectionEventReason.Timeout := by
  cases hc : s.connected <;> cases hr : s.reconnect <;>
    simp [Pixel.gattServerDisconnected, hc, hr]

/-- C10: disconnect() called while the transport link is not open (the
GATT server is absent or its connected property is false) is a complete
no-op: it emits no connection event, requests no link close, and leaves
the whole state, connected flag, session and info included, unchanged. -/
theorem disconnect_link_not_open_noop (s : PixelState)
    (h : s.gattPresent = false ∨ s.gattConnected = false) :
    Pixel.disconnect s = (s, [], false) := by
  rcases h with h | h <;> simp [Pixel.disconnect, h]

/-- C10 witness: the no-op theorem applied to a state whose GATT server is
absent while all Pixel fields are populated. -/
theorem disconnect_link_not_open_noop_witness :
    Pixel.disconnect sampleClosedState = (sampleClosedState, [], false) :=
  disconnect_link_not_open_noop sampleClosedState (Or.inl rfl)

/-- C2: on a 250-byte payload with maximum chunk size 100, uploadBulkData
sends exactly one BulkSetup with size 250 awaiting BulkSetupAck, then
exactly three BulkData chunks with sizes 100, 100, 50 at offsets 0, 100,
200 in that order, each awaiting BulkDataAck before the next is sent, and
the progress callback values are 0, 2/5, 4/5, 1 with the final invocation
equal to 1. -/
theorem uploadBulkData_250_trace (data : List Nat) (h : data.length = 250) :
    (uploadBulkData data).1 =
      [⟨BulkMessage.setup 250, MessageTypeValues.BulkSetupAck⟩,
        ⟨BulkMessage.data 0 100 (data.take 100), MessageTypeValues.BulkDataAck⟩,
        ⟨BulkMessage.data 100 100 ((data.drop 100).take 100),
          MessageTypeValues.BulkDataAck⟩,
        ⟨BulkMessage.data 200 50 ((data.drop 200).take 50),
          MessageTypeValues.BulkDataAck⟩] ∧
    (uploadBulkData data).2 = [0, 2 / 5, 4 / 5, 1] ∧
    (uploadBulkData data).2.getLast? = some 1 := by
  have e0 : uploadBulkDataLoop data 250 0 = ([], []) := by
    unfold uploadBulkDataLoop
    simp
  have e3 : uploadBulkDataLoop data 200 50 =
      ([⟨BulkMessage.data 200 50 ((data.drop 200).take 50),
          MessageTypeValues.BulkDataAck⟩], [1]) := by
    unfold uploadBulkDataLoop
    norm_num [Constants.MaxMessageSize, h, e0]
  have e2 : uploadBulkDataLoop data 100 150 =
      ([⟨BulkMessage.data 100 100 ((data.drop 100).take 100),
          MessageTypeValues.BulkDataAck⟩,
        ⟨BulkMessage.data 200 50 ((data.drop 200).take 50),
          MessageTypeValues.BulkDataAck⟩], [4 / 5, 1]) := by
    unfold uploadBulkDataLoop
    norm_num [Constants.MaxMessageSize, h, e3]
  have e1 : uploadBulkDataLoop data 0 250 =
      ([⟨BulkMessage.data 0 100 (data.take 100),
          MessageTypeValues.BulkDataAck⟩,
        ⟨BulkMessage.data 100 100 ((data.drop 100).take 100),
          MessageTypeValues.BulkDataAck⟩,
        ⟨BulkMessage.data 200 50 ((data.drop 200).take 50),
          MessageTypeValues.BulkDataAck⟩], [2 / 5, 4 / 5, 1]) := by
    unfold uploadBulkDataLoop
    norm_num [Constants.MaxMessageSize, h, e2]
  have h2 : (uploadBulkData data).2 = [0, 2 / 5, 4 / 5, 1] := by
    simp only [uploadBulkData, h, e1]
  refine ⟨?_, h2, ?_⟩
  · simp only [uploadBulkData, h, e1]
  · rw [h2]
    rfl

/-- C2 witness: the bulk-transfer theorem applied to a concrete 250-byte
payload. -/
theorem uploadBulkData_250_trace_witness :
    (uploadBulkData (List.replicate 250 3)).1 =
      [⟨BulkMessage.setup 250, MessageTypeValues.BulkSetupAck⟩,
        ⟨BulkMessage.data 0 100 ((List.replicate 250 3).take 100),
          MessageTypeValues.BulkDataAck⟩,
        ⟨BulkMessage.data 100 100 (((List.replicate 250 3).drop 100).take 100),
          MessageTypeValues.BulkDataAck⟩,
        ⟨BulkMessage.data 200 50 (((List.replicate 250 3).drop 200).take 50),
          MessageTypeValues.BulkDataAck⟩] ∧
    (uploadBulkData (List.replicate 250 3)).2 = [0, 2 / 5, 4 / 5, 1] ∧
    (uploadBulkData (List.replicate 250 3)).2.getLast? = some 1 :=
  uploadBulkData_250_trace (List.replicate 250 3) (by rw [List.length_replicate])

end PixelsWebConnect
